import Mathlib

/-!
Shallow embedding of `src/client/src/lib/oauth-state-machine.ts`: the OAuth
flow sequencer of the inspector client.

The TypeScript module defines a transition table `oauthTransitions` mapping
each `OAuthStep` to a guard (`canTransition`) and an action (`execute`), and a
driver class `OAuthStateMachine` whose `executeStep` evaluates the guard for
the snapshot's current step and either runs the action or throws a
guard-violation error.

Modelling choices:
- External collaborators (`discoverOAuthProtectedResourceMetadata`,
  `selectResourceURL`, `discoverAuthorizationServerMetadata`, the
  `OAuthMetadataSchema` validator, `registerClient`, `discoverScopes`,
  `startAuthorization`, `exchangeAuthorization`, `generateOAuthState`) live
  outside this repository; each Sequencer invocation calls each of them at
  most once, so their outcomes for one invocation are packaged in an `Env`
  record.  Fallible collaborators are `Except Err`-valued, the ones whose
  interface contract (spec section 6) declares no failure are total.
- The WHATWG `URL` constructor is kept symbolic (`URLVal`): the code only ever
  builds `new URL("/", serverUrl)` and `new URL(str)` and compares nothing
  about their insides.
- `updateState` is a caller-supplied callback receiving a
  `Partial<AuthDebuggerState>`; an action's run is recorded as the list of
  partial updates it passed to the callback (`StateUpdate`), the provider
  state after its side effects, the provider/registration calls it issued,
  and an `Except Err Unit` result (`.error` models a thrown exception).
-/

namespace OAuthSM

/-- The seven pipeline steps (`OAuthStep` from `auth-types`), in their fixed
forward order. -/
inductive OAuthStep where
  | prm_discovery
  | oauth_metadata_discovery
  | client_registration
  | authorization_redirect
  | authorization_code
  | token_request
  | complete
  deriving DecidableEq, Repr

/-- The string the step interpolates into error messages
(`Cannot transition from ${step}`). -/
def stepName : OAuthStep → String
  | .prm_discovery => "prm_discovery"
  | .oauth_metadata_discovery => "oauth_metadata_discovery"
  | .client_registration => "client_registration"
  | .authorization_redirect => "authorization_redirect"
  | .authorization_code => "authorization_code"
  | .token_request => "token_request"
  | .complete => "complete"

/-- A thrown JavaScript `Error`, identified by its message. -/
structure Err where
  message : String
  deriving DecidableEq, Repr

/-- Symbolic model of a WHATWG `URL` value.  `resolved path base` stands for
`new URL(path, base)`; `ofString u` stands for `new URL(u)`. -/
inductive URLVal where
  | resolved (path : String) (base : String)
  | ofString (url : String)
  deriving DecidableEq, Repr

/-- The fields of `OAuthProtectedResourceMetadata` the machine reads; `rest`
stands for all the fields it never inspects. -/
structure ResourceMetadata where
  authorization_servers : Option (List String) := none
  scopes_supported : Option (List String) := none
  rest : String := ""
  deriving DecidableEq, Repr

/-- Parsed Authorization Server metadata (`OAuthMetadata`); the machine only
reads `scopes_supported`. -/
structure OAuthMetadata where
  scopes_supported : Option (List String) := none
  rest : String := ""
  deriving DecidableEq, Repr

/-- Resolved client credentials (`OAuthClientInformationFull`), opaque to the
machine. -/
structure ClientInfo where
  client_id : String
  deriving DecidableEq, Repr

/-- Issued tokens (`OAuthTokens`), opaque to the machine. -/
structure Tokens where
  access_token : String
  deriving DecidableEq, Repr

/-- The provider's outgoing client-registration metadata template; the machine
assigns its `scope` field in place. -/
structure ClientRegMetadata where
  scope : Option String := none
  rest : String := ""
  deriving DecidableEq, Repr

/-- The `resource` Flow State field is `string | URL`: set to a `URL` by
`prm_discovery`, but possibly rehydrated as a string after the external
suspension. -/
inductive ResourceVal where
  | url (u : URLVal)
  | str (s : String)
  deriving DecidableEq, Repr

/-- `AuthDebuggerState`: the Flow State snapshot, restricted to the fields the
state machine reads or writes. -/
structure AuthDebuggerState where
  oauthStep : OAuthStep
  resourceMetadata : Option ResourceMetadata := none
  resourceMetadataError : Option Err := none
  resource : Option ResourceVal := none
  authServerUrl : Option URLVal := none
  oauthMetadata : Option OAuthMetadata := none
  oauthClientInfo : Option ClientInfo := none
  authorizationUrl : Option String := none
  authorizationCode : Option String := none
  validationError : Option String := none
  oauthTokens : Option Tokens := none
  deriving DecidableEq, Repr

/-- The persisted contents and template of the
`DebugInspectorOAuthClientProvider` bound to the target server URL. -/
structure Provider where
  serverMetadata : Option OAuthMetadata := none
  clientInfo : Option ClientInfo := none
  codeVerifierStored : Option String := none
  tokens : Option Tokens := none
  clientMetadata : ClientRegMetadata := {}
  redirectUrl : String := ""
  deriving DecidableEq, Repr

/-- `StateMachineContext` minus the `updateState` callback (whose invocations
are recorded in the outcome instead). -/
structure StateMachineContext where
  state : AuthDebuggerState
  serverUrl : String
  provider : Provider
  deriving DecidableEq, Repr

instance {ε α : Type} [DecidableEq ε] [DecidableEq α] : DecidableEq (Except ε α)
  | .ok a, .ok b =>
      if h : a = b then .isTrue (by rw [h]) else .isFalse (fun hc => h (Except.ok.inj hc))
  | .ok _, .error _ => .isFalse (fun hc => Except.noConfusion hc)
  | .error _, .ok _ => .isFalse (fun hc => Except.noConfusion hc)
  | .error a, .error b =>
      if h : a = b then .isTrue (by rw [h]) else .isFalse (fun hc => h (Except.error.inj hc))

/-- Outcomes of the external collaborator calls for one Sequencer invocation.
`.error` marks a rejected promise / thrown exception. -/
structure Env where
  prm : Except Err ResourceMetadata
  selectResource : Option URLVal
  asMetadata : Option String
  parsedMetadata : Except Err OAuthMetadata
  registerResult : Except Err ClientInfo
  scopesDiscovered : Option String
  startAuthResult : Except Err (String × String)
  oauthState : String
  exchangeResult : Except Err Tokens
  deriving DecidableEq, Repr

/-- One `updateState(…)` argument: a `Partial<AuthDebuggerState>`.  A `some`
field is a key present in the partial object (whose value may itself be
`null`/`undefined`); a `none` field is an absent key. -/
structure StateUpdate where
  oauthStep : Option OAuthStep := none
  resourceMetadata : Option (Option ResourceMetadata) := none
  resourceMetadataError : Option (Option Err) := none
  resource : Option (Option ResourceVal) := none
  authServerUrl : Option (Option URLVal) := none
  oauthMetadata : Option (Option OAuthMetadata) := none
  oauthClientInfo : Option (Option ClientInfo) := none
  authorizationUrl : Option (Option String) := none
  validationError : Option (Option String) := none
  oauthTokens : Option (Option Tokens) := none
  deriving DecidableEq, Repr

/-- Applying one partial update to a snapshot: present keys overwrite, absent
keys leave the field alone. -/
def StateUpdate.apply (s : AuthDebuggerState) (u : StateUpdate) : AuthDebuggerState :=
  { s with
    oauthStep := u.oauthStep.getD s.oauthStep
    resourceMetadata := u.resourceMetadata.getD s.resourceMetadata
    resourceMetadataError := u.resourceMetadataError.getD s.resourceMetadataError
    resource := u.resource.getD s.resource
    authServerUrl := u.authServerUrl.getD s.authServerUrl
    oauthMetadata := u.oauthMetadata.getD s.oauthMetadata
    oauthClientInfo := u.oauthClientInfo.getD s.oauthClientInfo
    authorizationUrl := u.authorizationUrl.getD s.authorizationUrl
    validationError := u.validationError.getD s.validationError
    oauthTokens := u.oauthTokens.getD s.oauthTokens }

/-- Applying a list of updates in order. -/
def applyAll (s : AuthDebuggerState) (us : List StateUpdate) : AuthDebuggerState :=
  us.foldl StateUpdate.apply s

/-- Provider / registration calls an action can issue, in order. -/
inductive ExtCall where
  | registerClient
  | saveServerMetadata
  | saveClientInformation
  | saveCodeVerifier
  | saveTokens
  deriving DecidableEq, Repr

/-- The observable run of one guard-passing action (or of the whole
`executeStep`): the `updateState` invocations in order, the external calls
issued, the provider after its side effects, and normal return or throw. -/
structure ExecOutcome where
  updates : List StateUpdate
  calls : List ExtCall
  provider : Provider
  result : Except Err Unit
  deriving DecidableEq, Repr

/-- JavaScript truthiness of an optional string field: `undefined` and `""`
are falsy (`!!context.state.authorizationCode`). -/
def truthyStr : Option String → Bool
  | none => false
  | some s => !(s == "")

/-- The guards: `canTransition` of each `oauthTransitions` entry.  Object
fields are truthy exactly when present, so `!!x` on them is `Option.isSome`. -/
def canTransition : OAuthStep → StateMachineContext → Bool
  | .prm_discovery, _ => true
  | .oauth_metadata_discovery, ctx => ctx.state.authServerUrl.isSome
  | .client_registration, ctx => ctx.state.oauthMetadata.isSome
  | .authorization_redirect, ctx =>
      ctx.state.oauthMetadata.isSome && ctx.state.oauthClientInfo.isSome
  | .authorization_code, _ => true
  | .token_request, ctx =>
      truthyStr ctx.state.authorizationCode
        && ctx.provider.serverMetadata.isSome
        && ctx.provider.clientInfo.isSome
  | .complete, _ => false

/-- `prm_discovery.execute`: the PRM fetch is the only call inside the
`try`/`catch`; its failure is captured.  `authServerUrl` defaults to
`new URL("/", serverUrl)` and is overridden by the first declared
authorization server when `resourceMetadata?.authorization_servers?.length`
is truthy (non-empty). -/
def executePRMDiscovery (env : Env) (ctx : StateMachineContext) : ExecOutcome :=
  let fetched : Option ResourceMetadata × Option Err :=
    match env.prm with
    | .ok md => (some md, none)
    | .error e => (none, some e)
  let resourceMetadata := fetched.1
  let resourceMetadataError := fetched.2
  let resource : Option ResourceVal := (env.selectResource).map ResourceVal.url
  let authServerUrl : URLVal :=
    match resourceMetadata with
    | some md =>
        match md.authorization_servers with
        | some (a :: _) => URLVal.ofString a
        | _ => URLVal.resolved "/" ctx.serverUrl
    | none => URLVal.resolved "/" ctx.serverUrl
  { updates := [{ resourceMetadata := some resourceMetadata
                  resource := some resource
                  resourceMetadataError := some resourceMetadataError
                  authServerUrl := some (some authServerUrl)
                  oauthStep := some .oauth_metadata_discovery }]
    calls := []
    provider := ctx.provider
    result := .ok () }

/-- `oauth_metadata_discovery.execute`: a missing (falsy) discovery result or
a failing schema parse throws before `saveServerMetadata` and before any
`updateState`. -/
def executeOAuthMetadataDiscovery (env : Env) (ctx : StateMachineContext) : ExecOutcome :=
  match env.asMetadata with
  | none =>
      { updates := []
        calls := []
        provider := ctx.provider
        result := .error ⟨"Failed to discover OAuth metadata"⟩ }
  | some _ =>
      match env.parsedMetadata with
      | .error e =>
          { updates := []
            calls := []
            provider := ctx.provider
            result := .error e }
      | .ok parsed =>
          { updates := [{ oauthMetadata := some (some parsed)
                          oauthStep := some .client_registration }]
            calls := [.saveServerMetadata]
            provider := { ctx.provider with serverMetadata := some parsed }
            result := .ok () }

/-- `context.state.resourceMetadata?.scopes_supported || metadata.scopes_supported`
with `metadata = context.state.oauthMetadata!`.  A JavaScript array is truthy
even when empty, so a present left operand (even `[]`) short-circuits; when
both the left operand is absent and `oauthMetadata` is undefined (unreachable
through the Sequencer, whose guard requires it), reading `.scopes_supported`
off `undefined` throws a `TypeError`. -/
def scopesSupportedJS (rm : Option ResourceMetadata) (m : Option OAuthMetadata) :
    Except Err (Option (List String)) :=
  match rm.bind (fun r => r.scopes_supported) with
  | some l => .ok (some l)
  | none =>
      match m with
      | some md => .ok md.scopes_supported
      | none => .error ⟨"TypeError: Cannot read properties of undefined (reading scopes_supported)"⟩

/-- `client_registration.execute`: assigns the space-joined scope string onto
the provider's `clientMetadata` template in place (when a scope list was
resolved), then tries static client information first and falls back to
dynamic registration, persisting only a freshly registered result. -/
def executeClientRegistration (env : Env) (ctx : StateMachineContext) : ExecOutcome :=
  match scopesSupportedJS ctx.state.resourceMetadata ctx.state.oauthMetadata with
  | .error e =>
      { updates := [], calls := [], provider := ctx.provider, result := .error e }
  | .ok scopesSupported =>
      let clientMetadata :=
        match scopesSupported with
        | some l => { ctx.provider.clientMetadata with scope := some (String.intercalate " " l) }
        | none => ctx.provider.clientMetadata
      let prov := { ctx.provider with clientMetadata := clientMetadata }
      match prov.clientInfo with
      | some fullInformation =>
          { updates := [{ oauthClientInfo := some (some fullInformation)
                          oauthStep := some .authorization_redirect }]
            calls := []
            provider := prov
            result := .ok () }
      | none =>
          match env.registerResult with
          | .error e =>
              { updates := []
                calls := [.registerClient]
                provider := prov
                result := .error e }
          | .ok fullInformation =>
              { updates := [{ oauthClientInfo := some (some fullInformation)
                              oauthStep := some .authorization_redirect }]
                calls := [.registerClient, .saveClientInformation]
                provider := { prov with clientInfo := some fullInformation }
                result := .ok () }

/-- `authorization_redirect.execute`: `discoverScopes` is total per its
interface contract; `startAuthorization` may throw, in which case nothing was
saved and no `updateState` ran. -/
def executeAuthorizationRedirect (env : Env) (ctx : StateMachineContext) : ExecOutcome :=
  match env.startAuthResult with
  | .error e =>
      { updates := [], calls := [], provider := ctx.provider, result := .error e }
  | .ok (authorizationUrl, codeVerifier) =>
      { updates := [{ authorizationUrl := some (some authorizationUrl)
                      oauthStep := some .authorization_code }]
        calls := [.saveCodeVerifier]
        provider := { ctx.provider with codeVerifierStored := some codeVerifier }
        result := .ok () }

/-- JavaScript `String.prototype.trim()`: strip leading and trailing
whitespace. -/
def jsTrim (s : String) : String :=
  ⟨((s.data.dropWhile Char.isWhitespace).reverse.dropWhile Char.isWhitespace).reverse⟩

/-- `!context.state.authorizationCode || context.state.authorizationCode.trim() === ""`. -/
def isBlankCode (c : Option String) : Bool :=
  !truthyStr c || (jsTrim (c.getD "") == "")

/-- `authorization_code.execute`: on a blank code it calls `updateState` with
a validation message and only then throws — the single action that reports
state before raising; on a non-blank code it clears the message and
advances. -/
def executeAuthorizationCode (ctx : StateMachineContext) : ExecOutcome :=
  if isBlankCode ctx.state.authorizationCode then
    { updates := [{ validationError := some (some "You need to provide an authorization code") }]
      calls := []
      provider := ctx.provider
      result := .error ⟨"Authorization code required"⟩ }
  else
    { updates := [{ validationError := some none, oauthStep := some .token_request }]
      calls := []
      provider := ctx.provider
      result := .ok () }

/-- `context.state.resource instanceof URL ? context.state.resource : new URL(context.state.resource)`:
the audience argument `token_request` hands to `exchangeAuthorization`. -/
def resourceAsURL : Option ResourceVal → Option URLVal
  | none => none
  | some (.url u) => some u
  | some (.str s) => some (URLVal.ofString s)

/-- `token_request.execute`: a failing exchange throws before `saveTokens`
and before any `updateState`. -/
def executeTokenRequest (env : Env) (ctx : StateMachineContext) : ExecOutcome :=
  match env.exchangeResult with
  | .error e =>
      { updates := [], calls := [], provider := ctx.provider, result := .error e }
  | .ok tokens =>
      { updates := [{ oauthTokens := some (some tokens), oauthStep := some .complete }]
        calls := [.saveTokens]
        provider := { ctx.provider with tokens := some tokens }
        result := .ok () }

/-- `complete.execute`: a no-op. -/
def executeComplete (ctx : StateMachineContext) : ExecOutcome :=
  { updates := [], calls := [], provider := ctx.provider, result := .ok () }

/-- The actions: `execute` of each `oauthTransitions` entry. -/
def execute : OAuthStep → Env → StateMachineContext → ExecOutcome
  | .prm_discovery, env, ctx => executePRMDiscovery env ctx
  | .oauth_metadata_discovery, env, ctx => executeOAuthMetadataDiscovery env ctx
  | .client_registration, env, ctx => executeClientRegistration env ctx
  | .authorization_redirect, env, ctx => executeAuthorizationRedirect env ctx
  | .authorization_code, _, ctx => executeAuthorizationCode ctx
  | .token_request, env, ctx => executeTokenRequest env ctx
  | .complete, _, ctx => executeComplete ctx

/-- `OAuthStateMachine.executeStep`: bind a fresh provider for the server,
evaluate the current step's guard, and either run the action or throw
`Cannot transition from ${step}` having touched nothing. -/
def executeStep (env : Env) (prov : Provider) (serverUrl : String)
    (state : AuthDebuggerState) : ExecOutcome :=
  let ctx : StateMachineContext :=
    { state := state, serverUrl := serverUrl, provider := prov }
  if canTransition state.oauthStep ctx then
    execute state.oauthStep env ctx
  else
    { updates := []
      calls := []
      provider := prov
      result := .error ⟨"Cannot transition from " ++ stepName state.oauthStep⟩ }

/-! Concrete sample values, used by the witness theorems. -/

/-- A sample thrown error. -/
def errX : Err := ⟨"network unreachable"⟩

/-- Sample PRM with one declared authorization server and two scopes. -/
def rmSample : ResourceMetadata :=
  { authorization_servers := some ["https://as.example/"]
    scopes_supported := some ["read", "write"] }

/-- Sample parsed AS metadata. -/
def omSample : OAuthMetadata := { scopes_supported := some ["email"] }

/-- Sample client credentials. -/
def ciSample : ClientInfo := ⟨"abc"⟩

/-- Sample token set. -/
def tokSample : Tokens := ⟨"tok-1"⟩

/-- An invocation in which every collaborator succeeds. -/
def envOk : Env :=
  { prm := .ok rmSample
    selectResource := some (URLVal.ofString "https://mcp.example/resource")
    asMetadata := some "raw-metadata"
    parsedMetadata := .ok omSample
    registerResult := .ok ciSample
    scopesDiscovered := some "read write"
    startAuthResult := .ok ("https://as.example/authorize", "verifier-1")
    oauthState := "state-1"
    exchangeResult := .ok tokSample }

/-- An invocation in which every fallible collaborator fails. -/
def envBad : Env :=
  { prm := .error errX
    selectResource := none
    asMetadata := none
    parsedMetadata := .error errX
    registerResult := .error errX
    scopesDiscovered := none
    startAuthResult := .error errX
    oauthState := "state-1"
    exchangeResult := .error errX }

/-- A provider with nothing persisted yet. -/
def provEmpty : Provider := {}

/-- A provider holding persisted server metadata and static client
information. -/
def provFull : Provider :=
  { serverMetadata := some omSample, clientInfo := some ciSample }

/-- A fresh snapshot sitting at the given step. -/
def stateAt (s : OAuthStep) : AuthDebuggerState := { oauthStep := s }

/-- A context at the given step over the given provider. -/
def ctxAt (s : OAuthStep) (p : Provider) : StateMachineContext :=
  { state := stateAt s, serverUrl := "https://mcp.example/", provider := p }

/-! The claims. -/

/-- C1: once the Flow State's step is `complete`, every further `executeStep`
raises the guard-violation error naming `complete`, with no `updateState`
invocation, no provider call, and the provider untouched; indeed the
`complete` guard is false on every context and its action is a no-op. -/
theorem complete_is_terminal (env : Env) (prov : Provider) (serverUrl : String)
    (state : AuthDebuggerState) (h : state.oauthStep = .complete) :
    executeStep env prov serverUrl state =
      { updates := []
        calls := []
        provider := prov
        result := .error ⟨"Cannot transition from complete"⟩ } ∧
    (∀ ctx : StateMachineContext, canTransition .complete ctx = false) ∧
    (∀ e ctx, execute .complete e ctx =
      { updates := [], calls := [], provider := ctx.provider, result := .ok () }) := by
  refine ⟨?_, fun ctx => rfl, fun e ctx => rfl⟩
  simp only [executeStep, h]
  rfl

/-- Witness for C1: a completed snapshot against a concrete environment. -/
theorem complete_is_terminal_witness :
    executeStep envBad provEmpty "https://mcp.example/" (stateAt .complete) =
      { updates := []
        calls := []
        provider := provEmpty
        result := .error ⟨"Cannot transition from complete"⟩ } :=
  (complete_is_terminal envBad provEmpty "https://mcp.example/" (stateAt .complete) rfl).1

/-- C2: at step `authorization_code`, a blank `authorizationCode` (absent,
empty, or whitespace-only after trimming) makes the action set
`validationError` to the user-facing message, throw
`Authorization code required`, and leave the step at `authorization_code`;
a non-blank code makes it clear `validationError` to null and advance the
step to `token_request`. -/
theorem authorization_code_validation (env : Env) (ctx : StateMachineContext)
    (h : ctx.state.oauthStep = .authorization_code) :
    ((ctx.state.authorizationCode = none ∨
        (∃ s, ctx.state.authorizationCode = some s ∧ jsTrim s = "")) →
      (execute .authorization_code env ctx).result = .error ⟨"Authorization code required"⟩ ∧
      (applyAll ctx.state (execute .authorization_code env ctx).updates).validationError =
        some "You need to provide an authorization code" ∧
      (applyAll ctx.state (execute .authorization_code env ctx).updates).oauthStep =
        .authorization_code) ∧
    ((∃ s, ctx.state.authorizationCode = some s ∧ jsTrim s ≠ "") →
      (execute .authorization_code env ctx).result = .ok () ∧
      (applyAll ctx.state (execute .authorization_code env ctx).updates).validationError = none ∧
      (applyAll ctx.state (execute .authorization_code env ctx).updates).oauthStep =
        .token_request) := by
  constructor
  · intro hblank
    have hb : isBlankCode ctx.state.authorizationCode = true := by
      rcases hblank with h0 | ⟨s, hs, hst⟩
      · simp [isBlankCode, truthyStr, h0]
      · simp [isBlankCode, truthyStr, hs, hst]
    simp [execute, executeAuthorizationCode, hb, applyAll, StateUpdate.apply, h]
  · rintro ⟨s, hs, hst⟩
    have hne : s ≠ "" := fun h0 => hst (by rw [h0]; decide)
    have hb : isBlankCode ctx.state.authorizationCode = false := by
      simp [isBlankCode, truthyStr, hs, hst, hne]
    simp [execute, executeAuthorizationCode, hb, applyAll, StateUpdate.apply]

/-- Witness for C2: a whitespace-only code is rejected in place. -/
theorem authorization_code_validation_witness :
    (execute .authorization_code envOk
        { state := { stateAt .authorization_code with authorizationCode := some "  " }
          serverUrl := "https://mcp.example/"
          provider := provEmpty }).result = .error ⟨"Authorization code required"⟩ :=
  ((authorization_code_validation envOk
      { state := { stateAt .authorization_code with authorizationCode := some "  " }
        serverUrl := "https://mcp.example/"
        provider := provEmpty } rfl).1
    (Or.inr ⟨"  ", rfl, by decide⟩)).1

/-- C3: the `prm_discovery` action never throws: it always returns normally
with a single update advancing the step to `oauth_metadata_discovery`, and a
failing PRM fetch is captured into `resourceMetadataError` instead of being
rethrown. -/
theorem prm_discovery_never_raises (env : Env) (ctx : StateMachineContext) :
    (execute .prm_discovery env ctx).result = .ok () ∧
    (applyAll ctx.state (execute .prm_discovery env ctx).updates).oauthStep =
      .oauth_metadata_discovery ∧
    (∀ e, env.prm = .error e →
      (applyAll ctx.state (execute .prm_discovery env ctx).updates).resourceMetadataError =
        some e) := by
  refine ⟨rfl, ?_, ?_⟩
  · cases henv : env.prm <;>
      simp [execute, executePRMDiscovery, henv, applyAll, StateUpdate.apply]
  · intro e he
    simp [execute, executePRMDiscovery, he, applyAll, StateUpdate.apply]

/-- Witness for C3: a failing PRM fetch is captured, the step advances. -/
theorem prm_discovery_never_raises_witness :
    (execute .prm_discovery envBad (ctxAt .prm_discovery provEmpty)).result = .ok () ∧
    (applyAll (ctxAt .prm_discovery provEmpty).state
        (execute .prm_discovery envBad (ctxAt .prm_discovery provEmpty)).updates).resourceMetadataError =
      some errX :=
  ⟨(prm_discovery_never_raises envBad (ctxAt .prm_discovery provEmpty)).1,
   (prm_discovery_never_raises envBad (ctxAt .prm_discovery provEmpty)).2.2 errX rfl⟩

/-- C4: `prm_discovery` sets `authServerUrl` to the first entry of the PRM
result's `authorization_servers` list when that list is present and
non-empty, and otherwise (fetch failed, list absent, or list empty) to
`new URL("/", serverUrl)`, the root origin of the target server. -/
theorem prm_discovery_authServerUrl (env : Env) (ctx : StateMachineContext) :
    (∀ md a rest, env.prm = .ok md → md.authorization_servers = some (a :: rest) →
      (applyAll ctx.state (execute .prm_discovery env ctx).updates).authServerUrl =
        some (URLVal.ofString a)) ∧
    (∀ e, env.prm = .error e →
      (applyAll ctx.state (execute .prm_discovery env ctx).updates).authServerUrl =
        some (URLVal.resolved "/" ctx.serverUrl)) ∧
    (∀ md, env.prm = .ok md → md.authorization_servers = none →
      (applyAll ctx.state (execute .prm_discovery env ctx).updates).authServerUrl =
        some (URLVal.resolved "/" ctx.serverUrl)) ∧
    (∀ md, env.prm = .ok md → md.authorization_servers = some [] →
      (applyAll ctx.state (execute .prm_discovery env ctx).updates).authServerUrl =
        some (URLVal.resolved "/" ctx.serverUrl)) := by
  refine ⟨?_, ?_, ?_, ?_⟩ <;> intros <;>
    simp [execute, executePRMDiscovery, *, applyAll, StateUpdate.apply]

/-- Witness for C4: a PRM result declaring one authorization server wins over
the root-origin fallback. -/
theorem prm_discovery_authServerUrl_witness :
    (applyAll (ctxAt .prm_discovery provEmpty).state
        (execute .prm_discovery envOk (ctxAt .prm_discovery provEmpty)).updates).authServerUrl =
      some (URLVal.ofString "https://as.example/") :=
  (prm_discovery_authServerUrl envOk (ctxAt .prm_discovery provEmpty)).1
    rmSample "https://as.example/" [] rfl rfl

/-- C5: `oauth_metadata_discovery` throws without any update when the fetched
AS metadata is missing/falsy or when the schema parse fails; on success it
persists the parsed metadata through `saveServerMetadata`, sets
`oauthMetadata`, and advances the step to `client_registration`. -/
theorem oauth_metadata_discovery_step (env : Env) (ctx : StateMachineContext) :
    (env.asMetadata = none →
      execute .oauth_metadata_discovery env ctx =
        { updates := []
          calls := []
          provider := ctx.provider
          result := .error ⟨"Failed to discover OAuth metadata"⟩ }) ∧
    (∀ raw e, env.asMetadata = some raw → env.parsedMetadata = .error e →
      execute .oauth_metadata_discovery env ctx =
        { updates := [], calls := [], provider := ctx.provider, result := .error e }) ∧
    (∀ raw parsed, env.asMetadata = some raw → env.parsedMetadata = .ok parsed →
      (execute .oauth_metadata_discovery env ctx).result = .ok () ∧
      (execute .oauth_metadata_discovery env ctx).provider =
        { ctx.provider with serverMetadata := some parsed } ∧
      (execute .oauth_metadata_discovery env ctx).calls = [.saveServerMetadata] ∧
      (applyAll ctx.state (execute .oauth_metadata_discovery env ctx).updates).oauthMetadata =
        some parsed ∧
      (applyAll ctx.state (execute .oauth_metadata_discovery env ctx).updates).oauthStep =
        .client_registration) := by
  refine ⟨?_, ?_, ?_⟩ <;> intros <;>
    simp [execute, executeOAuthMetadataDiscovery, *, applyAll, StateUpdate.apply]

/-- Witness for C5: a successful fetch and parse persists and advances. -/
theorem oauth_metadata_discovery_step_witness :
    (execute .oauth_metadata_discovery envOk (ctxAt .oauth_metadata_discovery provEmpty)).result =
      .ok () ∧
    (applyAll (ctxAt .oauth_metadata_discovery provEmpty).state
        (execute .oauth_metadata_discovery envOk (ctxAt .oauth_metadata_discovery provEmpty)).updates).oauthStep =
      .client_registration := by
  have h := (oauth_metadata_discovery_step envOk (ctxAt .oauth_metadata_discovery provEmpty)).2.2
    "raw-metadata" omSample rfl rfl
  exact ⟨h.1, h.2.2.2.2⟩

/-- C6: `client_registration` reuses pre-existing (static) client information
as-is, issuing neither `registerClient` nor `saveClientInformation`; when the
provider holds none, it calls `registerClient` and persists the result via
`saveClientInformation`; in both branches it reports `oauthClientInfo` and
advances the step to `authorization_redirect`. -/
theorem client_registration_static_or_dynamic (env : Env) (ctx : StateMachineContext)
    (m : OAuthMetadata) (hm : ctx.state.oauthMetadata = some m) :
    (∀ ci, ctx.provider.clientInfo = some ci →
      (execute .client_registration env ctx).result = .ok () ∧
      (execute .client_registration env ctx).calls = [] ∧
      (execute .client_registration env ctx).provider.clientInfo = some ci ∧
      (applyAll ctx.state (execute .client_registration env ctx).updates).oauthClientInfo =
        some ci ∧
      (applyAll ctx.state (execute .client_registration env ctx).updates).oauthStep =
        .authorization_redirect) ∧
    (∀ r, ctx.provider.clientInfo = none → env.registerResult = .ok r →
      (execute .client_registration env ctx).result = .ok () ∧
      (execute .client_registration env ctx).calls = [.registerClient, .saveClientInformation] ∧
      (execute .client_registration env ctx).provider.clientInfo = some r ∧
      (applyAll ctx.state (execute .client_registration env ctx).updates).oauthClientInfo =
        some r ∧
      (applyAll ctx.state (execute .client_registration env ctx).updates).oauthStep =
        .authorization_redirect) := by
  cases hs : ctx.state.resourceMetadata.bind (fun r => r.scopes_supported) with
  | none =>
      refine ⟨?_, ?_⟩ <;> intros <;>
        simp [execute, executeClientRegistration, scopesSupportedJS, hs, hm, *,
          applyAll, StateUpdate.apply]
  | some l =>
      refine ⟨?_, ?_⟩ <;> intros <;>
        simp [execute, executeClientRegistration, scopesSupportedJS, hs, hm, *,
          applyAll, StateUpdate.apply]

/-- Witness for C6: static credentials short-circuit registration. -/
theorem client_registration_static_or_dynamic_witness :
    (execute .client_registration envBad
        { state := { stateAt .client_registration with oauthMetadata := some omSample }
          serverUrl := "https://mcp.example/"
          provider := provFull }).calls = [] :=
  ((client_registration_static_or_dynamic envBad
      { state := { stateAt .client_registration with oauthMetadata := some omSample }
        serverUrl := "https://mcp.example/"
        provider := provFull } omSample rfl).1 ciSample rfl).2.1

/-- The precondition fields claim C7 declares for each non-terminal step,
observed as JS truthiness of the corresponding Flow State / Provider fields
(this list follows the claim's words, to be compared against the source's
`canTransition`). -/
def declaredGuardFields : OAuthStep → StateMachineContext → List Bool
  | .prm_discovery, _ => []
  | .oauth_metadata_discovery, ctx => [ctx.state.authServerUrl.isSome]
  | .client_registration, ctx => [ctx.state.oauthMetadata.isSome]
  | .authorization_redirect, ctx =>
      [ctx.state.oauthMetadata.isSome, ctx.state.oauthClientInfo.isSome]
  | .authorization_code, _ => []
  | .token_request, ctx =>
      [truthyStr ctx.state.authorizationCode,
       ctx.provider.serverMetadata.isSome,
       ctx.provider.clientInfo.isSome]
  | .complete, _ => []

/-- C7: for every step other than `complete`, the guard is a function only of
that step's declared precondition fields: two contexts agreeing on them get
the same verdict, and supplying all of them truthy makes the guard pass
whatever every other field holds. -/
theorem guards_depend_only_on_declared_fields (step : OAuthStep)
    (h : step ≠ .complete) :
    (∀ c1 c2 : StateMachineContext,
      declaredGuardFields step c1 = declaredGuardFields step c2 →
      canTransition step c1 = canTransition step c2) ∧
    (∀ c : StateMachineContext,
      (declaredGuardFields step c).all (fun b => b) = true →
      canTransition step c = true) := by
  cases step with
  | complete => exact absurd rfl h
  | prm_discovery => exact ⟨fun c1 c2 _ => rfl, fun c _ => rfl⟩
  | authorization_code => exact ⟨fun c1 c2 _ => rfl, fun c _ => rfl⟩
  | oauth_metadata_discovery =>
      refine ⟨fun c1 c2 hagree => ?_, fun c hc => ?_⟩
      · simp [declaredGuardFields] at hagree
        simp [canTransition, hagree]
      · simp [declaredGuardFields] at hc
        simp [canTransition, hc]
  | client_registration =>
      refine ⟨fun c1 c2 hagree => ?_, fun c hc => ?_⟩
      · simp [declaredGuardFields] at hagree
        simp [canTransition, hagree]
      · simp [declaredGuardFields] at hc
        simp [canTransition, hc]
  | authorization_redirect =>
      refine ⟨fun c1 c2 hagree => ?_, fun c hc => ?_⟩
      · simp [declaredGuardFields] at hagree
        simp [canTransition, hagree.1, hagree.2]
      · simp [declaredGuardFields] at hc
        simp [canTransition, hc.1, hc.2]
  | token_request =>
      refine ⟨fun c1 c2 hagree => ?_, fun c hc => ?_⟩
      · simp [declaredGuardFields] at hagree
        simp [canTransition, hagree.1, hagree.2.1, hagree.2.2]
      · simp [declaredGuardFields] at hc
        simp [canTransition, hc.1, hc.2.1, hc.2.2]

/-- Witness for C7: the `token_request` guard passes once its three declared
fields are truthy, over an otherwise default snapshot. -/
theorem guards_depend_only_on_declared_fields_witness :
    canTransition .token_request
      { state := { stateAt .token_request with authorizationCode := some "xyz789" }
        serverUrl := "https://mcp.example/"
        provider := provFull } = true :=
  (guards_depend_only_on_declared_fields .token_request (by decide)).2
    { state := { stateAt .token_request with authorizationCode := some "xyz789" }
      serverUrl := "https://mcp.example/"
      provider := provFull } (by decide)

/-- C8: for every step except `authorization_code`, a throwing action has
invoked `updateState` zero times, so the Flow State is left exactly as it
was. -/
theorem execute_error_atomic (step : OAuthStep) (env : Env) (ctx : StateMachineContext)
    (e : Err) (hstep : step ≠ .authorization_code)
    (h : (execute step env ctx).result = .error e) :
    (execute step env ctx).updates = [] ∧
    applyAll ctx.state (execute step env ctx).updates = ctx.state := by
  have hu : (execute step env ctx).updates = [] := by
    cases step with
    | authorization_code => exact absurd rfl hstep
    | prm_discovery => simp [execute, executePRMDiscovery] at h
    | complete => simp [execute, executeComplete] at h
    | oauth_metadata_discovery =>
        cases has : env.asMetadata with
        | none => simp [execute, executeOAuthMetadataDiscovery, has]
        | some raw =>
            cases hp : env.parsedMetadata with
            | error e2 => simp [execute, executeOAuthMetadataDiscovery, has, hp]
            | ok parsed => simp [execute, executeOAuthMetadataDiscovery, has, hp] at h
    | client_registration =>
        cases hs : scopesSupportedJS ctx.state.resourceMetadata ctx.state.oauthMetadata with
        | error e2 => simp [execute, executeClientRegistration, hs]
        | ok sc =>
            cases hci : ctx.provider.clientInfo with
            | some ci => simp [execute, executeClientRegistration, hs, hci] at h
            | none =>
                cases hr : env.registerResult with
                | error e2 => simp [execute, executeClientRegistration, hs, hci, hr]
                | ok r => simp [execute, executeClientRegistration, hs, hci, hr] at h
    | authorization_redirect =>
        cases hr : env.startAuthResult with
        | error e2 => simp [execute, executeAuthorizationRedirect, hr]
        | ok p =>
            obtain ⟨u, v⟩ := p
            simp [execute, executeAuthorizationRedirect, hr] at h
    | token_request =>
        cases hr : env.exchangeResult with
        | error e2 => simp [execute, executeTokenRequest, hr]
        | ok t => simp [execute, executeTokenRequest, hr] at h
  exact ⟨hu, by rw [hu]; rfl⟩

/-- Witness for C8: a failing token exchange leaves the snapshot untouched. -/
theorem execute_error_atomic_witness :
    (execute .token_request envBad (ctxAt .token_request provFull)).updates = [] ∧
    applyAll (ctxAt .token_request provFull).state
        (execute .token_request envBad (ctxAt .token_request provFull)).updates =
      (ctxAt .token_request provFull).state :=
  execute_error_atomic .token_request envBad (ctxAt .token_request provFull)
    errX (by decide) rfl

/-- C9: `client_registration` assigns the space-joined scope string onto the
provider's `clientMetadata` template before the static-credentials check, so
the template ends up mutated whatever the branch: static credentials present,
dynamic registration succeeding, or `registerClient` throwing. -/
theorem client_registration_scope_mutation (env : Env) (ctx : StateMachineContext)
    (l : List String)
    (hl : scopesSupportedJS ctx.state.resourceMetadata ctx.state.oauthMetadata = .ok (some l)) :
    (execute .client_registration env ctx).provider.clientMetadata.scope =
      some (String.intercalate " " l) := by
  cases hci : ctx.provider.clientInfo with
  | some ci => simp [execute, executeClientRegistration, hl, hci]
  | none =>
      cases hr : env.registerResult with
      | error e => simp [execute, executeClientRegistration, hl, hci, hr]
      | ok r => simp [execute, executeClientRegistration, hl, hci, hr]

/-- Witness for C9: the template is mutated even though `registerClient`
throws and nothing is persisted. -/
theorem client_registration_scope_mutation_witness :
    (execute .client_registration envBad
        { state := { stateAt .client_registration with
                       resourceMetadata := some rmSample
                       oauthMetadata := some omSample }
          serverUrl := "https://mcp.example/"
          provider := provEmpty }).provider.clientMetadata.scope =
      some "read write" :=
  client_registration_scope_mutation envBad
    { state := { stateAt .client_registration with
                   resourceMetadata := some rmSample
                   oauthMetadata := some omSample }
      serverUrl := "https://mcp.example/"
      provider := provEmpty } ["read", "write"] rfl

/-- C10: every run of `prm_discovery` issues one single update carrying both
`resourceMetadata` and `resourceMetadataError`, with exactly one of the two
non-null: the fetched document with a null error on success, a null document
with the captured error on failure. -/
theorem prm_discovery_update_pair (env : Env) (ctx : StateMachineContext) :
    (execute .prm_discovery env ctx).updates.length = 1 ∧
    (∀ md, env.prm = .ok md →
      ((execute .prm_discovery env ctx).updates.headD {}).resourceMetadata = some (some md) ∧
      ((execute .prm_discovery env ctx).updates.headD {}).resourceMetadataError = some none) ∧
    (∀ e, env.prm = .error e →
      ((execute .prm_discovery env ctx).updates.headD {}).resourceMetadata = some none ∧
      ((execute .prm_discovery env ctx).updates.headD {}).resourceMetadataError =
        some (some e)) := by
  refine ⟨rfl, ?_, ?_⟩ <;> intros <;> simp [execute, executePRMDiscovery, *]

/-- Witness for C10: the success shape at a concrete environment. -/
theorem prm_discovery_update_pair_witness :
    ((execute .prm_discovery envOk (ctxAt .prm_discovery provEmpty)).updates.headD
        {}).resourceMetadata = some (some rmSample) ∧
    ((execute .prm_discovery envOk (ctxAt .prm_discovery provEmpty)).updates.headD
        {}).resourceMetadataError = some none :=
  (prm_discovery_update_pair envOk (ctxAt .prm_discovery provEmpty)).2.1 rmSample rfl

end OAuthSM
